import Mathlib

/-!
Verification of the sql_proxy query gate, pagination arithmetic and
repository result shaping, as a shallow embedding of the Python sources.

Strings are modelled over their character lists; `Char.toUpper`,
`Char.toLower` and `Char.isAlphanum` model the Python `str.upper`,
`str.lower` and the regex character classes on the ASCII inputs the
spec and the examples use.  Python's `\w` regex class (letters, digits
and the underscore) is modelled by `isWordChar`.
-/

/-! ## Query validator (src/infrastructure/database/query_validator.py) -/

/-- Python regex word character (`\w`): alphanumeric or underscore. -/
def isWordChar (c : Char) : Bool :=
  c.isAlphanum || c = '_'

/-- `query.upper()` as a character list. -/
def upperChars (q : String) : List Char :=
  q.data.map Char.toUpper

/-- One candidate match position of `re.search(rf"\b{keyword}\b", q)`:
`kw` occurs at index `i` of `q` and both neighbours are word
boundaries (start/end of string or a non-word character). -/
def flaggedAt (q kw : List Char) (i : Nat) : Bool :=
  kw.isPrefixOf (q.drop i) &&
    (decide (i = 0) || !isWordChar (q.getD (i - 1) ' ')) &&
    !isWordChar (q.getD (i + kw.length) ' ')

/-- `re.search(rf"\b{keyword}\b", q) is not None`. -/
def reSearchWord (kw q : List Char) : Bool :=
  (List.range (q.length + 1)).any (fun i => flaggedAt q kw i)

/-- `QueryValidator.FORBIDDEN_KEYWORDS`, in declared order. -/
def FORBIDDEN_KEYWORDS : List String :=
  ["INSERT", "UPDATE", "DELETE", "DROP", "TRUNCATE", "ALTER", "CREATE", "GRANT", "REVOKE"]

/-- `QueryValidator.is_safe_query`. -/
def is_safe_query (q : String) : Bool :=
  !(FORBIDDEN_KEYWORDS.any (fun kw => reSearchWord kw.data (upperChars q)))

/-- `keyword.lower()`. -/
def lowerStr (s : String) : String :=
  ⟨s.data.map Char.toLower⟩

/-- `QueryValidator.get_forbidden_keyword`. -/
def get_forbidden_keyword (q : String) : Option String :=
  (FORBIDDEN_KEYWORDS.find? (fun kw => reSearchWord kw.data (upperChars q))).map lowerStr

example : is_safe_query "SELECT * FROM users" = true := by decide
example : is_safe_query "DROP TABLE users" = false := by decide
example : is_safe_query "SELECT updated_at FROM t" = true := by decide
example : is_safe_query "UPDATE_AT" = true := by decide
example : get_forbidden_keyword "DROP TABLE users" = some "drop" := by decide
example : get_forbidden_keyword "DROP UPDATE" = some "update" := by decide
example : get_forbidden_keyword "SELECT 1" = none := by decide

/-! ## Word-boundary semantics of the validator scan -/

/-- A standalone-word occurrence of `kw` in the uppercased query:
`kw` occurs with a non-word character or a string boundary on both
sides.  This is the semantics of the regex `\b{kw}\b` search for the
all-letter forbidden keywords. -/
def standaloneWordOccurs (kw q : String) : Prop :=
  ∃ pre post : List Char,
    upperChars q = pre ++ kw.data ++ post ∧
    (∀ c, pre.getLast? = some c → isWordChar c = false) ∧
    (∀ c, post.head? = some c → isWordChar c = false)

theorem flaggedAt_exists_decomp {q kw : List Char} (hkw : kw ≠ []) {i : Nat}
    (h : flaggedAt q kw i = true) :
    ∃ pre post : List Char, q = pre ++ kw ++ post ∧ pre.length = i ∧
      (∀ c, pre.getLast? = some c → isWordChar c = false) ∧
      (∀ c, post.head? = some c → isWordChar c = false) := by
  unfold flaggedAt at h
  rw [Bool.and_eq_true, Bool.and_eq_true] at h
  obtain ⟨⟨hp, hl⟩, hr⟩ := h
  rw [List.isPrefixOf_iff_prefix] at hp
  obtain ⟨post, hpost⟩ := hp
  have hdrop : q.drop i ≠ [] := by
    rw [← hpost]
    simp [List.append_eq_nil, hkw]
  have hi : i < q.length := by
    rcases Nat.lt_or_ge i q.length with h | h
    · exact h
    · exact absurd (List.drop_eq_nil_iff.mpr h) hdrop
  refine ⟨q.take i, post, ?_, ?_, ?_, ?_⟩
  · conv_lhs => rw [← List.take_append_drop i q]
    rw [← hpost, List.append_assoc]
  · rw [List.length_take]
    omega
  · intro c hc
    have hi0 : i ≠ 0 := by
      intro h0
      subst h0
      simp at hc
    have hlen : (q.take i).length = i := by
      rw [List.length_take]; omega
    have hcq : q[i - 1]? = some c := by
      have h1 : (q.take i).getLast? = (q.take i)[i - 1]? := by
        rw [List.getLast?_eq_getElem?, hlen]
      rw [h1, List.getElem?_take_of_lt (by omega)] at hc
      exact hc
    have hgetD : q.getD (i - 1) ' ' = c := by
      rw [List.getD_eq_getElem?_getD, hcq]
      rfl
    rw [Bool.or_eq_true, decide_eq_true_eq] at hl
    rcases hl with h0 | hw
    · exact absurd h0 hi0
    · rw [hgetD] at hw
      simpa using hw
  · intro c hc
    have hcq : q[i + kw.length]? = some c := by
      have hq2 : q = (q.take i ++ kw) ++ post := by
        conv_lhs => rw [← List.take_append_drop i q]
        rw [← hpost, List.append_assoc]
      have hlen2 : (q.take i ++ kw).length = i + kw.length := by
        rw [List.length_append, List.length_take]
        omega
      rw [hq2, List.getElem?_append_right (by omega), hlen2]
      simp only [Nat.sub_self]
      rw [← List.head?_eq_getElem?]
      exact hc
    have hgetD : q.getD (i + kw.length) ' ' = c := by
      rw [List.getD_eq_getElem?_getD, hcq]
      rfl
    rw [hgetD] at hr
    simpa using hr

theorem flaggedAt_of_decomp {pre kw post : List Char}
    (hl : ∀ c, pre.getLast? = some c → isWordChar c = false)
    (hr : ∀ c, post.head? = some c → isWordChar c = false) :
    flaggedAt (pre ++ kw ++ post) kw pre.length = true := by
  unfold flaggedAt
  rw [Bool.and_eq_true, Bool.and_eq_true]
  refine ⟨⟨?_, ?_⟩, ?_⟩
  · rw [List.append_assoc, List.drop_left]
    exact List.isPrefixOf_iff_prefix.mpr (List.prefix_append kw post)
  · rw [Bool.or_eq_true]
    match hpre : pre.getLast? with
    | none =>
      left
      rw [decide_eq_true_eq]
      simpa using hpre
    | some c =>
      right
      have hlen : 1 ≤ pre.length := by
        cases pre with
        | nil => simp at hpre
        | cons x xs => simp
      have hcq : (pre ++ kw ++ post)[pre.length - 1]? = pre[pre.length - 1]? := by
        rw [List.append_assoc, List.getElem?_append_left (by omega)]
      have hval : (pre ++ kw ++ post).getD (pre.length - 1) ' ' = c := by
        rw [List.getD_eq_getElem?_getD, hcq, ← List.getLast?_eq_getElem?, hpre]
        rfl
      rw [hval]
      simp [hl c hpre]
  · match hpost : post.head? with
    | none =>
      have hpost2 : post = [] := by simpa using hpost
      subst hpost2
      have hval : (pre ++ kw ++ []).getD (pre.length + kw.length) ' ' = ' ' := by
        rw [List.getD_eq_getElem?_getD, List.getElem?_eq_none]
        · rfl
        · simp
      rw [hval]
      decide
    | some c =>
      have hlen2 : (pre ++ kw).length = pre.length + kw.length := List.length_append pre kw
      have hcq : (pre ++ kw ++ post)[pre.length + kw.length]? = some c := by
        rw [List.getElem?_append_right (by omega), hlen2]
        simp only [Nat.sub_self]
        rw [← List.head?_eq_getElem?]
        exact hpost
      have hval : (pre ++ kw ++ post).getD (pre.length + kw.length) ' ' = c := by
        rw [List.getD_eq_getElem?_getD, hcq]
        rfl
      rw [hval]
      simp [hr c hpost]

theorem reSearchWord_iff_decomp {kw : List Char} (hkw : kw ≠ []) (q : List Char) :
    reSearchWord kw q = true ↔
      ∃ pre post : List Char, q = pre ++ kw ++ post ∧
        (∀ c, pre.getLast? = some c → isWordChar c = false) ∧
        (∀ c, post.head? = some c → isWordChar c = false) := by
  constructor
  · intro h
    rw [reSearchWord, List.any_eq_true] at h
    obtain ⟨i, _, hf⟩ := h
    obtain ⟨pre, post, hq, _, hbl, hbr⟩ := flaggedAt_exists_decomp hkw hf
    exact ⟨pre, post, hq, hbl, hbr⟩
  · rintro ⟨pre, post, hq, hbl, hbr⟩
    rw [reSearchWord, List.any_eq_true]
    refine ⟨pre.length, ?_, ?_⟩
    · rw [List.mem_range]
      subst hq
      simp [List.length_append]
      omega
    · subst hq
      exact flaggedAt_of_decomp hbl hbr

theorem standaloneWordOccurs_iff (kw q : String) (hkw : kw.data ≠ []) :
    reSearchWord kw.data (upperChars q) = true ↔ standaloneWordOccurs kw q :=
  reSearchWord_iff_decomp hkw (upperChars q)

theorem forbidden_keywords_nonempty :
    ∀ kw ∈ FORBIDDEN_KEYWORDS, kw.data ≠ [] := by decide

/-- `List.find?` returns the first element satisfying the predicate:
the list splits around the found element and everything before it
fails the predicate. -/
theorem find?_eq_some_split {α : Type} (p : α → Bool) :
    ∀ (xs : List α) (b : α), xs.find? p = some b →
      p b = true ∧ ∃ l1 l2, xs = l1 ++ b :: l2 ∧ ∀ a ∈ l1, p a = false := by
  intro xs
  induction xs with
  | nil => intro b h; simp at h
  | cons x xs ih =>
    intro b h
    cases hpx : p x with
    | true =>
      rw [List.find?_cons_of_pos _ hpx] at h
      obtain rfl : x = b := by simpa using h
      exact ⟨hpx, [], xs, rfl, by simp⟩
    | false =>
      rw [List.find?_cons_of_neg _ (by simp [hpx])] at h
      obtain ⟨hb, l1, l2, hsplit, hfail⟩ := ih b h
      refine ⟨hb, x :: l1, l2, by rw [hsplit]; rfl, ?_⟩
      intro a ha
      rcases List.mem_cons.mp ha with rfl | ha
      · exact hpx
      · exact hfail a ha

/-! ## Claim theorems about the validator -/

/-- The flagging condition exactly as the claim words it: an occurrence
of a forbidden keyword in the uppercased query whose immediate
neighbours on both sides are each either a non-alphanumeric character
or the string boundary. -/
def claimAlnumBoundaryAt (q kw : List Char) (i : Nat) : Bool :=
  kw.isPrefixOf (q.drop i) &&
    (decide (i = 0) || !(q.getD (i - 1) ' ').isAlphanum) &&
    !(q.getD (i + kw.length) ' ').isAlphanum

/-- The claimed characterisation of an unsafe query (alphanumeric
boundaries rather than regex word boundaries). -/
def claimFlagged (q : String) : Bool :=
  FORBIDDEN_KEYWORDS.any (fun kw =>
    (List.range ((upperChars q).length + 1)).any
      (fun i => claimAlnumBoundaryAt (upperChars q) kw.data i))

/-- C3 (counterexample): the claim predicts that
`"SELECT UPDATE_AT FROM t"` is flagged (the occurrence of `UPDATE` has
a space on the left and the non-alphanumeric `_` on the right), but the
code's `\b` word boundary treats `_` as a word character and accepts
the query. -/
theorem c3_boundary_counterexample :
    claimFlagged "SELECT UPDATE_AT FROM t" = true ∧
    is_safe_query "SELECT UPDATE_AT FROM t" = true := by decide

/-- C3 (amended): `is_safe_query q` is `false` iff the uppercased `q`
contains an occurrence of a forbidden keyword whose immediate
neighbours on both sides are each either a non-word character (not a
letter, digit, or underscore) or the string boundary; consequently
forbidden words occurring only inside longer identifiers never flag
the query. -/
theorem is_safe_query_iff_no_standalone_word (q : String) :
    is_safe_query q = false ↔ ∃ kw ∈ FORBIDDEN_KEYWORDS, standaloneWordOccurs kw q := by
  unfold is_safe_query
  rw [Bool.not_eq_false', List.any_eq_true]
  apply exists_congr
  intro kw
  apply and_congr_right
  intro hkw
  exact standaloneWordOccurs_iff kw q (forbidden_keywords_nonempty kw hkw)

/-- C2: if some forbidden keyword occurs in `q` as a standalone word
(case-insensitively) then the query is unsafe and
`get_forbidden_keyword` returns, in lowercase, the first keyword in
declared list order that occurs as a standalone word. -/
theorem get_forbidden_keyword_first_in_order (q k : String)
    (hk : k ∈ FORBIDDEN_KEYWORDS) (hocc : standaloneWordOccurs k q) :
    is_safe_query q = false ∧
    ∃ k0 l1 l2, FORBIDDEN_KEYWORDS = l1 ++ k0 :: l2 ∧
      standaloneWordOccurs k0 q ∧
      get_forbidden_keyword q = some (lowerStr k0) ∧
      ∀ k1 ∈ l1, ¬ standaloneWordOccurs k1 q := by
  have hsearch : reSearchWord k.data (upperChars q) = true :=
    (standaloneWordOccurs_iff k q (forbidden_keywords_nonempty k hk)).mpr hocc
  have hany : FORBIDDEN_KEYWORDS.any (fun kw => reSearchWord kw.data (upperChars q)) = true :=
    List.any_eq_true.mpr ⟨k, hk, hsearch⟩
  constructor
  · unfold is_safe_query
    rw [hany]
    rfl
  · have hsome : (FORBIDDEN_KEYWORDS.find?
        (fun kw => reSearchWord kw.data (upperChars q))).isSome :=
      List.find?_isSome.mpr ⟨k, hk, hsearch⟩
    obtain ⟨k0, hk0⟩ := Option.isSome_iff_exists.mp hsome
    obtain ⟨hp0, l1, l2, hsplit, hfail⟩ := find?_eq_some_split _ _ _ hk0
    have hk0mem : k0 ∈ FORBIDDEN_KEYWORDS := List.mem_of_find?_eq_some hk0
    refine ⟨k0, l1, l2, hsplit, ?_, ?_, ?_⟩
    · exact (standaloneWordOccurs_iff k0 q (forbidden_keywords_nonempty k0 hk0mem)).mp hp0
    · rw [get_forbidden_keyword, hk0]
      rfl
    · intro k1 h1 hocc1
      have h1mem : k1 ∈ FORBIDDEN_KEYWORDS := by
        rw [hsplit]
        exact List.mem_append_left _ h1
      have hs1 : reSearchWord k1.data (upperChars q) = true :=
        (standaloneWordOccurs_iff k1 q (forbidden_keywords_nonempty k1 h1mem)).mpr hocc1
      rw [hfail k1 h1] at hs1
      exact Bool.false_ne_true hs1

/-- Witness for C2 at `"DROP UPDATE"`: both `DROP` and `UPDATE` occur as
standalone words, and the keyword reported is `update`, the first in
declared order, not `drop`, the first in the text. -/
theorem get_forbidden_keyword_first_in_order_witness :
    is_safe_query "DROP UPDATE" = false ∧
    ∃ k0 l1 l2, FORBIDDEN_KEYWORDS = l1 ++ k0 :: l2 ∧
      standaloneWordOccurs k0 "DROP UPDATE" ∧
      get_forbidden_keyword "DROP UPDATE" = some (lowerStr k0) ∧
      ∀ k1 ∈ l1, ¬ standaloneWordOccurs k1 "DROP UPDATE" :=
  get_forbidden_keyword_first_in_order "DROP UPDATE" "DROP" (by decide)
    ⟨[], " UPDATE".data, by decide, by simp, by
      intro c hc
      have h2 : (" UPDATE".data).head? = some ' ' := by decide
      rw [h2] at hc
      cases hc
      decide⟩

/-- C9: a query is safe iff `get_forbidden_keyword` returns `None`, and
every unsafe query yields an actual keyword, so the ForbiddenQuery
message never carries `None`. -/
theorem is_safe_query_iff_keyword_none (q : String) :
    (is_safe_query q = true ↔ get_forbidden_keyword q = none) ∧
    (is_safe_query q = false → ∃ kw, get_forbidden_keyword q = some kw) := by
  unfold is_safe_query get_forbidden_keyword
  cases hfind : FORBIDDEN_KEYWORDS.find? (fun kw => reSearchWord kw.data (upperChars q)) with
  | none =>
    have hall := List.find?_eq_none.mp hfind
    have hany : FORBIDDEN_KEYWORDS.any (fun kw => reSearchWord kw.data (upperChars q)) = false :=
      List.any_eq_false.mpr hall
    rw [hany]
    simp
  | some k0 =>
    have hp0 := (find?_eq_some_split _ _ _ hfind).1
    have hany : FORBIDDEN_KEYWORDS.any (fun kw => reSearchWord kw.data (upperChars q)) = true :=
      List.any_eq_true.mpr ⟨k0, List.mem_of_find?_eq_some hfind, hp0⟩
    rw [hany]
    refine ⟨by simp, fun _ => ⟨lowerStr k0, rfl⟩⟩

/-- Witness for C9 at the unsafe query `"DROP TABLE users"`. -/
theorem is_safe_query_iff_keyword_none_witness :
    ∃ kw, get_forbidden_keyword "DROP TABLE users" = some kw :=
  (is_safe_query_iff_keyword_none "DROP TABLE users").2 (by decide)

/-! ## ExecuteQuery use case (src/use_cases/execute_query.py) -/

/-- The exception taxonomy of
`src/infrastructure/exceptions/database_exceptions.py`. -/
inductive DbError where
  | forbiddenQuery (msg : String)
  | queryExecution (msg : String)
  | tableNotFound (msg : String)
deriving DecidableEq

/-- `QueryResult` (src/domain/entities/query_result.py), value type of
the cells left abstract. -/
structure QueryResult (α : Type) where
  columns : List String
  rows : List (List α)
  row_count : Nat
deriving DecidableEq

/-- Python f-string rendering of an `str | None` value. -/
def pyStrOfOptStr : Option String → String
  | some s => s
  | none => "None"

/-- `ExecuteQueryUseCase.execute`, with the repository passed as a
function: validate first, raise `ForbiddenQueryError` on an unsafe
query, otherwise delegate to `repository.execute_query`. -/
def executeQueryUseCase {α : Type} (repo : String → Except DbError (QueryResult α))
    (query : String) : Except DbError (QueryResult α) :=
  if is_safe_query query then
    repo query
  else
    .error (.forbiddenQuery
      ("Query contains forbidden keyword: " ++ pyStrOfOptStr (get_forbidden_keyword query)))

/-- C1: the use case validates before any repository call.  On an
unsafe query it fails with `ForbiddenQueryError` naming the first
forbidden keyword, and its outcome does not depend on the repository
(the repository is never invoked); on a safe query it returns exactly
the repository's result, value or error. -/
theorem executeQueryUseCase_validates_first {α : Type}
    (repo repo2 : String → Except DbError (QueryResult α)) (q : String) :
    (is_safe_query q = false →
      (∃ kw, get_forbidden_keyword q = some kw ∧
        executeQueryUseCase repo q =
          .error (.forbiddenQuery ("Query contains forbidden keyword: " ++ kw))) ∧
      executeQueryUseCase repo q = executeQueryUseCase repo2 q) ∧
    (is_safe_query q = true → executeQueryUseCase repo q = repo q) := by
  constructor
  · intro hflag
    obtain ⟨kw, hkw⟩ := (is_safe_query_iff_keyword_none q).2 hflag
    constructor
    · refine ⟨kw, hkw, ?_⟩
      unfold executeQueryUseCase
      rw [hflag, hkw]
      rfl
    · unfold executeQueryUseCase
      rw [hflag]
      rfl
  · intro hsafe
    unfold executeQueryUseCase
    rw [hsafe]
    rfl

/-- Witness for C1: a forbidden query is rejected with the keyword in
the message independently of the repository, and a safe query returns
the repository's result unchanged. -/
theorem executeQueryUseCase_validates_first_witness :
    executeQueryUseCase (fun _ => Except.ok (⟨["id"], [[1]], 1⟩ : QueryResult Nat))
        "DROP TABLE users" =
      Except.error (DbError.forbiddenQuery "Query contains forbidden keyword: drop") ∧
    executeQueryUseCase (fun _ => Except.ok (⟨["id"], [[1]], 1⟩ : QueryResult Nat))
        "SELECT id FROM users" =
      Except.ok ⟨["id"], [[1]], 1⟩ := by
  constructor
  · obtain ⟨⟨kw, hkw, he⟩, _⟩ :=
      (executeQueryUseCase_validates_first
        (fun _ => Except.ok (⟨["id"], [[1]], 1⟩ : QueryResult Nat))
        (fun _ => Except.error (DbError.queryExecution "unused"))
        "DROP TABLE users").1 (by decide)
    have hdrop : get_forbidden_keyword "DROP TABLE users" = some "drop" := by decide
    rw [hdrop] at hkw
    cases hkw
    exact he
  · exact (executeQueryUseCase_validates_first
      (fun _ => Except.ok (⟨["id"], [[1]], 1⟩ : QueryResult Nat))
      (fun _ => Except.ok (⟨["id"], [[1]], 1⟩ : QueryResult Nat))
      "SELECT id FROM users").2 (by decide)

/-! ## Pagination (src/domain/entities/pagination.py) -/

/-- `Pagination`: a frozen dataclass; the constructor performs no
validation of its three integer fields. -/
structure Pagination where
  page : Int
  page_size : Int
  total_count : Int
deriving DecidableEq

/-- `Pagination.total_pages`:
`(total_count + page_size - 1) // page_size` with Python floor
division; the Python expression raises `ZeroDivisionError` when
`page_size = 0`, modelled by `none`. -/
def Pagination.total_pages (p : Pagination) : Option Int :=
  if p.page_size = 0 then none
  else some ((p.total_count + p.page_size - 1).fdiv p.page_size)

/-- `Pagination.offset`: `(page - 1) * page_size`. -/
def Pagination.offset (p : Pagination) : Int :=
  (p.page - 1) * p.page_size

example : Pagination.total_pages ⟨3, 10, 25⟩ = some 3 := by decide
example : Pagination.offset ⟨3, 10, 25⟩ = 20 := by decide
example : Pagination.total_pages ⟨3, 10, 0⟩ = some 0 := by decide

/-- C4: within the documented bounds, `total_pages` is the ceiling of
`total_count / page_size` and `offset` is `(page-1)*page_size`; a zero
`total_count` gives zero pages while the offset is still computed from
page and page_size. -/
theorem pagination_total_pages_eq_ceil (p : Pagination)
    (_hpage : 1 ≤ p.page) (hs1 : 1 ≤ p.page_size) (hs2 : p.page_size ≤ 100)
    (_ht : 0 ≤ p.total_count) :
    p.total_pages = some ⌈(p.total_count : ℚ) / (p.page_size : ℚ)⌉ ∧
    p.offset = (p.page - 1) * p.page_size ∧
    (p.total_count = 0 → p.total_pages = some 0) := by
  have hs0 : p.page_size ≠ 0 := by omega
  have hceil : ⌈(p.total_count : ℚ) / (p.page_size : ℚ)⌉ =
      (p.total_count + p.page_size - 1).fdiv p.page_size := by
    set t := p.total_count with hts
    set s := p.page_size with hss
    have hq : (t + s - 1).fdiv s = (t + s - 1) / s := Int.fdiv_eq_ediv _ (by omega)
    have hdm : s * ((t + s - 1) / s) + (t + s - 1) % s = t + s - 1 :=
      Int.ediv_add_emod (t + s - 1) s
    have hr1 : 0 ≤ (t + s - 1) % s := Int.emod_nonneg _ (by omega)
    have hr2 : (t + s - 1) % s < s := Int.emod_lt_of_pos _ (by omega)
    have h1 : t ≤ ((t + s - 1) / s) * s := by
      have hc : ((t + s - 1) / s) * s = s * ((t + s - 1) / s) := mul_comm _ _
      linarith
    have h2 : ((t + s - 1) / s - 1) * s < t := by
      have hc : ((t + s - 1) / s - 1) * s = s * ((t + s - 1) / s) - s := by ring
      linarith
    have hsq : (0 : ℚ) < (s : ℚ) := by exact_mod_cast (by omega : (0 : Int) < s)
    rw [hq, Int.ceil_eq_iff]
    constructor
    · rw [lt_div_iff₀ hsq]
      exact_mod_cast h2
    · rw [div_le_iff₀ hsq]
      exact_mod_cast h1
  refine ⟨?_, rfl, ?_⟩
  · rw [Pagination.total_pages, if_neg hs0, hceil]
  · intro h0
    rw [Pagination.total_pages, if_neg hs0]
    have hz : (p.total_count + p.page_size - 1).fdiv p.page_size = 0 := by
      rw [h0, Int.fdiv_eq_ediv _ (by omega)]
      exact Int.ediv_eq_zero_of_lt (by omega) (by omega)
    rw [hz]

/-- Witness for C4 at page=3, page_size=10, total_count=25:
total_pages=3 and offset=20. -/
theorem pagination_total_pages_eq_ceil_witness :
    Pagination.total_pages ⟨3, 10, 25⟩ = some 3 ∧
    Pagination.offset ⟨3, 10, 25⟩ = 20 := by
  have h := pagination_total_pages_eq_ceil ⟨3, 10, 25⟩
    (by norm_num) (by norm_num) (by norm_num) (by norm_num)
  refine ⟨?_, ?_⟩
  · rw [h.1]
    norm_num
    rw [Int.ceil_eq_iff]; norm_num
  · rw [h.2.1]
    norm_num

/-- C10: the dataclass constructor validates nothing, so the documented
bounds are caller preconditions: with `page_size = 0` the `total_pages`
division is an unguarded division by zero (a Python
`ZeroDivisionError`, modelled as `none`); within the bounds both
derived values are defined and non-negative. -/
theorem pagination_requires_caller_validation (p : Pagination) :
    (p.page_size = 0 → p.total_pages = none) ∧
    (1 ≤ p.page → 1 ≤ p.page_size → 0 ≤ p.total_count →
      (∃ n, p.total_pages = some n ∧ 0 ≤ n) ∧ 0 ≤ p.offset) := by
  constructor
  · intro h
    rw [Pagination.total_pages, if_pos h]
  · intro hp hs ht
    refine ⟨⟨(p.total_count + p.page_size - 1).fdiv p.page_size, ?_, ?_⟩, ?_⟩
    · rw [Pagination.total_pages, if_neg (by omega)]
    · exact Int.fdiv_nonneg (by omega) (by omega)
    · exact mul_nonneg (by omega) (by omega)

/-- Witness for C10: `page_size = 0` hits the division by zero, while
the in-bounds triple (3, 10, 25) has defined, non-negative values. -/
theorem pagination_requires_caller_validation_witness :
    Pagination.total_pages ⟨1, 0, 5⟩ = none ∧
    (∃ n, Pagination.total_pages ⟨3, 10, 25⟩ = some n ∧ 0 ≤ n) ∧
    0 ≤ Pagination.offset ⟨3, 10, 25⟩ :=
  ⟨(pagination_requires_caller_validation ⟨1, 0, 5⟩).1 rfl,
   (pagination_requires_caller_validation ⟨3, 10, 25⟩).2
     (by decide) (by decide) (by decide)⟩

/-! ## PostgreSQL repository (src/infrastructure/database/repository.py) -/

/-- `ColumnInfo` (src/domain/entities/column_info.py). -/
structure ColumnInfo where
  column_name : String
  data_type : String
  is_nullable : Bool
  is_primary_key : Bool
  is_foreign_key : Bool
  column_comment : Option String
  ordinal_position : Int
deriving DecidableEq

/-- `IndexInfo` (src/domain/entities/column_info.py). -/
structure IndexInfo where
  index_name : String
  columns : List String
  is_unique : Bool
  is_primary : Bool
deriving DecidableEq

/-- One `pg_attribute` row of the inspected table: ordinal position
(`attnum`) and column name (`attname`). -/
structure PgAttribute where
  attnum : Nat
  attname : String
deriving DecidableEq

/-- One `pg_index` row: index name, the index key as the list of
participating `attnum`s in index-definition order, and the two flags. -/
structure PgIndexDef where
  index_name : String
  indkey : List Nat
  is_unique : Bool
  is_primary : Bool
deriving DecidableEq

/-- The aggregate `ARRAY_AGG(a.attname ORDER BY a.attnum)` of the
indexes query: the attributes participating in the index key, sorted
by their `attnum` (their ordinal position in the table). -/
def indexColumnsAgg (attrs : List PgAttribute) (indkey : List Nat) : List PgAttribute :=
  List.insertionSort (fun a b => a.attnum ≤ b.attnum)
    (attrs.filter (fun a => indkey.contains a.attnum))

/-- One row of the indexes query mapped to an `IndexInfo`. -/
def indexInfoOfDef (attrs : List PgAttribute) (ix : PgIndexDef) : IndexInfo :=
  { index_name := ix.index_name
    columns := (indexColumnsAgg attrs ix.indkey).map PgAttribute.attname
    is_unique := ix.is_unique
    is_primary := ix.is_primary }

/-- The four catalog statements `get_table_schema` can issue, in
source order. -/
inductive SchemaQuery where
  | existsQuery
  | commentQuery
  | columnsQuery
  | indexesQuery
deriving DecidableEq

/-- The catalog state visible through one acquired connection: which
relations exist in the `public` schema, their comments, the rows the
columns query returns, and the `pg_attribute`/`pg_index` rows feeding
the indexes query. -/
structure SchemaConn where
  relationExists : String → Bool
  tableComment : String → Option String
  columnRows : String → List ColumnInfo
  tableAttrs : String → List PgAttribute
  tableIndexes : String → List PgIndexDef

/-- `PostgreSQLRepository.get_table_schema`: run the existence query
first and raise `TableNotFoundError` when it is negative; otherwise
run the comment, columns and indexes queries.  The second component
logs the catalog statements actually executed, in order. -/
def get_table_schema (conn : SchemaConn) (t : String) :
    Except DbError (List ColumnInfo × List IndexInfo × Option String) × List SchemaQuery :=
  if conn.relationExists t then
    (.ok (conn.columnRows t,
          (conn.tableIndexes t).map (indexInfoOfDef (conn.tableAttrs t)),
          conn.tableComment t),
     [.existsQuery, .commentQuery, .columnsQuery, .indexesQuery])
  else
    (.error (.tableNotFound ("Table \x27" ++ t ++ "\x27 not found")),
     [.existsQuery])

/-- `PostgreSQLRepository.execute_query`: the driver `fetch` either
fails with a message or returns records, each a list of
(field name, value) pairs in field order. -/
def execute_query {α : Type} (fetch : String → Except String (List (List (String × α))))
    (q : String) : Except DbError (QueryResult α) :=
  match fetch q with
  | .error e => .error (.queryExecution ("Query execution failed: " ++ e))
  | .ok [] => .ok ⟨[], [], 0⟩
  | .ok (r :: rs) =>
      .ok ⟨r.map Prod.fst, (r :: rs).map (fun row => row.map Prod.snd), (r :: rs).length⟩

/-- C5: `get_table_schema` runs the existence test first; on a missing
relation it fails with `TableNotFoundError` having executed no
comment, column, or index query, and on an existing relation it never
raises `TableNotFoundError`. -/
theorem get_table_schema_existence_first (conn : SchemaConn) (t : String) :
    (conn.relationExists t = false →
      (get_table_schema conn t).1 =
        .error (.tableNotFound ("Table \x27" ++ t ++ "\x27 not found")) ∧
      (get_table_schema conn t).2 = [SchemaQuery.existsQuery]) ∧
    (conn.relationExists t = true →
      (∃ v, (get_table_schema conn t).1 = .ok v) ∧
      (get_table_schema conn t).2 =
        [SchemaQuery.existsQuery, SchemaQuery.commentQuery,
          SchemaQuery.columnsQuery, SchemaQuery.indexesQuery]) ∧
    (get_table_schema conn t).2.head? = some SchemaQuery.existsQuery := by
  unfold get_table_schema
  cases h : conn.relationExists t with
  | false =>
    refine ⟨fun _ => ⟨rfl, rfl⟩, fun hc => absurd hc (by simp), rfl⟩
  | true =>
    refine ⟨fun hc => absurd hc (by simp), fun _ => ⟨⟨_, rfl⟩, rfl⟩, rfl⟩

/-- Witness for C5 on a one-table catalog: the unknown name fails with
only the existence query executed; the known name succeeds. -/
theorem get_table_schema_existence_first_witness :
    (get_table_schema ⟨fun s => s == "users", fun _ => none, fun _ => [],
        fun _ => [], fun _ => []⟩ "missing").1 =
      Except.error (DbError.tableNotFound ("Table \x27" ++ "missing" ++ "\x27 not found")) ∧
    (get_table_schema ⟨fun s => s == "users", fun _ => none, fun _ => [],
        fun _ => [], fun _ => []⟩ "missing").2 = [SchemaQuery.existsQuery] ∧
    ∃ v, (get_table_schema ⟨fun s => s == "users", fun _ => none, fun _ => [],
        fun _ => [], fun _ => []⟩ "users").1 = Except.ok v :=
  ⟨((get_table_schema_existence_first _ "missing").1 (by decide)).1,
   ((get_table_schema_existence_first _ "missing").1 (by decide)).2,
   ((get_table_schema_existence_first _ "users").2.1 (by decide)).1⟩

/-- C6: a successful fetch of N driver records is shaped into a
`QueryResult` with `row_count = N`; zero records give the empty
result, and otherwise the columns are the first record's field names
in field order and each row is that record's values positionally, so
that under the driver invariant that all records share the field list
every row's length equals `len(columns)`. -/
theorem execute_query_result_shape {α : Type}
    (fetch : String → Except String (List (List (String × α))))
    (q : String) (rows : List (List (String × α))) (hf : fetch q = .ok rows) :
    (rows = [] → execute_query fetch q = .ok ⟨[], [], 0⟩) ∧
    (∀ r rs, rows = r :: rs →
      ∃ res, execute_query fetch q = .ok res ∧
        res.row_count = rows.length ∧
        res.columns = r.map Prod.fst ∧
        res.rows = rows.map (fun row => row.map Prod.snd) ∧
        ((∀ row ∈ rows, row.length = r.length) →
          ∀ out ∈ res.rows, out.length = res.columns.length)) := by
  constructor
  · intro h0
    subst h0
    unfold execute_query
    rw [hf]
  · intro r rs hcons
    subst hcons
    refine ⟨⟨r.map Prod.fst, (r :: rs).map (fun row => row.map Prod.snd),
      (r :: rs).length⟩, ?_, rfl, rfl, rfl, ?_⟩
    · unfold execute_query
      rw [hf]
    · intro hu out hout
      simp only [List.mem_map] at hout
      obtain ⟨row, hrow, rfl⟩ := hout
      simp only [List.length_map]
      exact hu row hrow

/-- Witness for C6: the empty fetch and a two-row fetch. -/
theorem execute_query_result_shape_witness :
    execute_query (fun _ => Except.ok ([] : List (List (String × Nat)))) "SELECT 1" =
      Except.ok ⟨[], [], 0⟩ ∧
    ∃ res, execute_query
        (fun _ => Except.ok [[("id", (1 : Nat)), ("name", 2)], [("id", 3), ("name", 4)]])
        "SELECT id, name FROM t" = Except.ok res ∧
      res.row_count = 2 ∧
      res.columns = ["id", "name"] ∧
      ∀ out ∈ res.rows, out.length = res.columns.length := by
  constructor
  · exact (execute_query_result_shape _ "SELECT 1" [] rfl).1 rfl
  · obtain ⟨res, he, hc, hcols, _, hlen⟩ :=
      (execute_query_result_shape
        (fun _ => Except.ok [[("id", (1 : Nat)), ("name", 2)], [("id", 3), ("name", 4)]])
        "SELECT id, name FROM t" _ rfl).2
        [("id", 1), ("name", 2)] [[("id", 3), ("name", 4)]] rfl
    exact ⟨res, he, hc, hcols, hlen (by decide)⟩

/-- C8: every driver-level fault is re-raised as `QueryExecutionError`
whose message is the fixed prefix followed by the driver's message
text verbatim (in particular the driver text is a verbatim suffix of
the message). -/
theorem execute_query_wraps_driver_error {α : Type}
    (fetch : String → Except String (List (List (String × α))))
    (q e : String) (hf : fetch q = .error e) :
    execute_query fetch q =
      .error (.queryExecution ("Query execution failed: " ++ e)) ∧
    ∃ m, execute_query fetch q = .error (.queryExecution m) ∧
      e.data.isSuffixOf m.data = true := by
  have h1 : execute_query fetch q =
      .error (.queryExecution ("Query execution failed: " ++ e)) := by
    unfold execute_query
    rw [hf]
  refine ⟨h1, "Query execution failed: " ++ e, h1, ?_⟩
  rw [List.isSuffixOf_iff_suffix, String.data_append]
  exact List.suffix_append _ _

/-- Witness for C8 with a driver syntax error. -/
theorem execute_query_wraps_driver_error_witness :
    execute_query
        (fun _ => (Except.error "syntax error at or near \x22SELEC\x22" :
          Except String (List (List (String × Nat))))) "SELEC 1" =
      Except.error (DbError.queryExecution
        ("Query execution failed: " ++ "syntax error at or near \x22SELEC\x22")) ∧
    ∃ m, execute_query
        (fun _ => (Except.error "syntax error at or near \x22SELEC\x22" :
          Except String (List (List (String × Nat))))) "SELEC 1" =
      Except.error (DbError.queryExecution m) ∧
      ("syntax error at or near \x22SELEC\x22").data.isSuffixOf m.data = true :=
  execute_query_wraps_driver_error _ "SELEC 1" "syntax error at or near \x22SELEC\x22" rfl

instance : IsTotal PgAttribute (fun a b => a.attnum ≤ b.attnum) :=
  ⟨fun a b => Nat.le_total a.attnum b.attnum⟩

instance : IsTrans PgAttribute (fun a b => a.attnum ≤ b.attnum) :=
  ⟨fun _ _ _ => Nat.le_trans⟩

/-- C7 (amended): each row of the indexes query yields one `IndexInfo`
carrying that index's name and flags, whose `columns` list holds
exactly the attributes participating in the index key, ordered by
their ordinal position in the table (`attnum`) — the order imposed by
`ARRAY_AGG(a.attname ORDER BY a.attnum)` — not by their position
within the index definition. -/
theorem index_columns_table_order (attrs : List PgAttribute) (ix : PgIndexDef) :
    (indexInfoOfDef attrs ix).index_name = ix.index_name ∧
    (indexInfoOfDef attrs ix).is_unique = ix.is_unique ∧
    (indexInfoOfDef attrs ix).is_primary = ix.is_primary ∧
    (indexInfoOfDef attrs ix).columns =
      (indexColumnsAgg attrs ix.indkey).map PgAttribute.attname ∧
    List.Pairwise (fun a b => a.attnum ≤ b.attnum) (indexColumnsAgg attrs ix.indkey) ∧
    (indexColumnsAgg attrs ix.indkey).Perm
      (attrs.filter (fun a => ix.indkey.contains a.attnum)) := by
  refine ⟨rfl, rfl, rfl, rfl, ?_, ?_⟩
  · exact List.sorted_insertionSort _ _
  · exact List.perm_insertionSort _ _

/-- The columns list as the claim words it: the participating column
names ordered by each column's position within the index definition,
i.e. following the order of `indkey`. -/
def specIndexColumns (attrs : List PgAttribute) (indkey : List Nat) : List String :=
  indkey.filterMap (fun n =>
    (attrs.find? (fun a => a.attnum == n)).map PgAttribute.attname)

/-- C7 (counterexample): a table with columns a (attnum 1) and
b (attnum 2) and an index defined on (b, a): the code produces
["a", "b"], the table column order, while ordering by position within
the index definition would produce ["b", "a"]. -/
theorem c7_index_definition_order_counterexample :
    (indexInfoOfDef [⟨1, "a"⟩, ⟨2, "b"⟩] ⟨"ix_ba", [2, 1], false, false⟩).columns =
      ["a", "b"] ∧
    specIndexColumns [⟨1, "a"⟩, ⟨2, "b"⟩] [2, 1] = ["b", "a"] ∧
    (indexInfoOfDef [⟨1, "a"⟩, ⟨2, "b"⟩] ⟨"ix_ba", [2, 1], false, false⟩).columns ≠
      specIndexColumns [⟨1, "a"⟩, ⟨2, "b"⟩] [2, 1] := by decide
